import Mathlib

/-!
Verification of the process-supervision core of the VRacing launcher
(`core/process_manager.py`).

The OS process table is modelled by an environment `env : Nat → Bool`
giving, for each PID, whether `_pid_alive` (a `tasklist` query) reports it
alive.  The best-effort kill calls (`taskkill /PID … /T /F`,
`taskkill /IM …`) swallow every error, so their only caller-visible effect
is the attempt itself; they are modelled as emitted `KillAction` values.

A few Python `str` primitives are re-implemented over `List Char` so that
every definition reduces by kernel computation: `strToLower` models
`str.lower()`, `strTrim` models `str.strip()`, `strEndsWith` models
`str.endswith(suffix)`, `strContains` models Python's `needle in hay`,
and `wsSplit` models `str.split()` (whitespace splitting).
-/

/-- Models Python `str.lower()` (`String.map Char.toLower`). -/
def strToLower (s : String) : String :=
  ⟨s.data.map Char.toLower⟩

/-- Models Python `str.strip()`: drop leading and trailing whitespace. -/
def strTrim (s : String) : String :=
  ⟨((s.data.dropWhile Char.isWhitespace).reverse.dropWhile Char.isWhitespace).reverse⟩

/-- `charsStartWith pat hay` is true when `pat` occurs at the head of `hay`. -/
def charsStartWith : List Char → List Char → Bool
  | [], _ => true
  | _ :: _, [] => false
  | p :: ps, h :: hs => p == h && charsStartWith ps hs

/-- `charsContain pat hay` is true when `pat` occurs contiguously in `hay`. -/
def charsContain (pat : List Char) : List Char → Bool
  | [] => charsStartWith pat []
  | h :: hs => charsStartWith pat (h :: hs) || charsContain pat hs

/-- Models Python `hay.endswith(pat)`: `pat` is a suffix of `hay`. -/
def strEndsWith (hay pat : String) : Bool :=
  charsStartWith pat.data.reverse hay.data.reverse

/-- Models Python `pat in hay`: substring containment. -/
def strContains (hay pat : String) : Bool :=
  charsContain pat.data hay.data

/-- Models Python `str.split()`: split on whitespace runs, no empty words.
The accumulator holds the current (reversed) word. -/
def wsSplitAux : List Char → List Char → List String
  | [], acc => if acc.isEmpty then [] else [⟨acc.reverse⟩]
  | c :: cs, acc =>
    if c.isWhitespace then
      if acc.isEmpty then wsSplitAux cs [] else ⟨acc.reverse⟩ :: wsSplitAux cs []
    else wsSplitAux cs (c :: acc)

/-- Models Python `s.split()` on a whole string. -/
def wsSplit (s : String) : List String :=
  wsSplitAux s.data []

/-- A kill side effect issued by the code.  `killTree pid` is
`_kill_tree` (`taskkill /PID pid /T /F`), `killImage img` is
`_taskkill_image` (`taskkill /IM img /T /F`), `popenTerminate pid` is
`subprocess.Popen.terminate()` on a directly spawned process.  All three
are best-effort and never raise. -/
inductive KillAction where
  | killTree (pid : Nat)
  | killImage (img : String)
  | popenTerminate (pid : Nat)
  deriving DecidableEq, Repr

/-- State of `_SteamTrackedProc`: the lowercase image-name hint `_img`,
the liveness flag `_alive`, and the optional resolved `pid`. -/
structure SteamTrackedProc where
  img : String
  alive : Bool
  pid : Option Nat
  deriving DecidableEq, Repr

/-- `_SteamTrackedProc.__init__(pid, img)`: store the stripped, lowered
image hint, start alive, and keep the PID only if it is nonzero (truthy)
and currently alive. -/
def SteamTrackedProc.make (env : Nat → Bool) (pid : Nat) (img : String) :
    SteamTrackedProc :=
  { img := strToLower (strTrim img)
    alive := true
    pid := if pid ≠ 0 ∧ env pid then some pid else none }

/-- `_SteamTrackedProc.attach_pid(pid, img_hint)`: if the candidate PID is
nonzero and alive, store it, overwrite the image hint when one is given,
and set `_alive = True`; otherwise do nothing.  (The source checks only
`pid and _pid_alive(pid)`: it consults neither `_alive` nor whether a PID
is already present.) -/
def SteamTrackedProc.attach_pid (env : Nat → Bool) (s : SteamTrackedProc)
    (pid : Nat) (hint : String) : SteamTrackedProc :=
  if pid ≠ 0 ∧ env pid then
    { s with
      pid := some pid
      img := if hint ≠ "" then strToLower hint else s.img
      alive := true }
  else s

/-- `_SteamTrackedProc.poll()`: `some 0` if already marked dead; otherwise
refresh `_alive` from the PID when one is known (an unresolved handle is
assumed alive) and report `none` (still running) or `some 0` (exited).
Returns the updated handle together with the poll result. -/
def SteamTrackedProc.poll (env : Nat → Bool) (s : SteamTrackedProc) :
    SteamTrackedProc × Option Nat :=
  if s.alive = false then (s, some 0)
  else
    match s.pid with
    | some p => ({ s with alive := env p }, if env p then none else some 0)
    | none => (s, none)

/-- `_SteamTrackedProc.terminate()`: kill the tree by PID when resolved,
kill by image name when a hint is known, and mark the handle dead.  The
kill calls never raise; they are returned as emitted actions. -/
def SteamTrackedProc.terminate (s : SteamTrackedProc) :
    SteamTrackedProc × List KillAction :=
  ({ s with alive := false },
    (match s.pid with
      | some p => [KillAction.killTree p]
      | none => []) ++
    (if s.img ≠ "" then [KillAction.killImage s.img] else []))

/-- Claim C1: executed at the failing input.  Terminate a fresh unresolved
handle, then call `attach_pid` with PID 5 while PID 5 is alive: the handle
comes back with `_alive = True` and `poll()` again reports `None`
("still running").  `attach_pid` checks only `pid and _pid_alive(pid)`
and never consults `_alive`, so it is NOT a no-op on an
already-terminated handle, contradicting the claim (and §5 of the spec,
which requires that a later attach never resurrect a terminated handle
with a live PID). -/
theorem C1_attach_resurrects_terminated_handle :
    ((SteamTrackedProc.make (fun p => p == 5) 0 "").terminate.1.alive = false) ∧
    (((SteamTrackedProc.make (fun p => p == 5) 0 "").terminate.1.attach_pid
        (fun p => p == 5) 5 "").alive = true) ∧
    ((((SteamTrackedProc.make (fun p => p == 5) 0 "").terminate.1.attach_pid
        (fun p => p == 5) 5 "").poll (fun p => p == 5)).2 = none) := by
  decide

/-- Claim C2, counterexample: on a fresh unresolved handle, `attach_pid`
with a PID that is dead at attach time is a no-op (the handle stays
unresolved), yet the subsequent `poll()` still reports `None`
("still running"), because an unresolved live handle always polls as
running.  This refutes the claimed "still running iff pid was alive at
attach time". -/
theorem C2_counterexample_dead_pid_still_running :
    ((SteamTrackedProc.make (fun _ => false) 0 "").attach_pid
        (fun _ => false) 5 "" = SteamTrackedProc.make (fun _ => false) 0 "") ∧
    ((SteamTrackedProc.make (fun _ => false) 0 "").pid = none) ∧
    (((SteamTrackedProc.make (fun _ => false) 0 "").attach_pid
        (fun _ => false) 5 "").poll (fun _ => false)).2 = none := by
  decide

/-- Claim C2 (amended): with the process table unchanged between attach
and poll, (a) `attach_pid` with a nonzero PID that is alive at attach time
makes the following `poll()` report `None` ("still running"); (b) with a
zero or dead PID the call is a no-op on the whole handle state, so (c) an
unresolved handle stays unresolved — but `poll()` then reports according
to the handle's prior state, not "exited". -/
theorem C2_attach_then_poll (env : Nat → Bool) (s : SteamTrackedProc)
    (pid : Nat) (hint : String) :
    (pid ≠ 0 → env pid = true →
      ((s.attach_pid env pid hint).poll env).2 = none) ∧
    (¬ (pid ≠ 0 ∧ env pid = true) → s.attach_pid env pid hint = s) ∧
    (s.pid = none → env pid = false →
      (s.attach_pid env pid hint).pid = none) := by
  refine ⟨?_, ?_, ?_⟩
  · intro hpid halive
    simp [SteamTrackedProc.attach_pid, SteamTrackedProc.poll, hpid, halive]
  · intro h
    simp only [SteamTrackedProc.attach_pid]
    rw [if_neg]
    simpa using h
  · intro hnone hdead
    by_cases hz : pid ≠ 0 ∧ env pid = true
    · exact absurd hz.2 (by simp [hdead])
    · have hno : s.attach_pid env pid hint = s := by
        simp only [SteamTrackedProc.attach_pid]
        rw [if_neg]
        simpa using hz
      rw [hno, hnone]

/-- Claim C2 witness: a concrete live attach followed by a poll reporting
"still running". -/
theorem C2_attach_then_poll_witness :
    (5 : Nat) ≠ 0 ∧ (fun p => p == 5) 5 = true ∧
    (((SteamTrackedProc.make (fun p => p == 5) 0 "").attach_pid
        (fun p => p == 5) 5 "game.exe").poll (fun p => p == 5)).2 = none :=
  ⟨by decide, by decide,
    (C2_attach_then_poll (fun p => p == 5)
      (SteamTrackedProc.make (fun p => p == 5) 0 "") 5 "game.exe").1
      (by decide) (by decide)⟩

/-- Claim C3, counterexample: `attach_pid` on a handle that already has
PID 3 is not ignored — a live candidate PID 5 overwrites the stored PID. -/
theorem C3_counterexample_reattach_overwrites :
    (SteamTrackedProc.attach_pid (fun _ => true) ⟨"", true, some 3⟩ 5 "").pid
      = some 5 ∧
    SteamTrackedProc.attach_pid (fun _ => true) ⟨"", true, some 3⟩ 5 ""
      ≠ ⟨"", true, some 3⟩ := by
  decide

/-- Claim C3 (amended): no operation ever clears a resolved handle's PID —
`poll` and `terminate` preserve it exactly and `attach_pid` keeps it
resolved — so there is no resolved→unresolved transition; but an attach
made while a PID is already present is NOT ignored: a nonzero live
candidate PID overwrites the stored one. -/
theorem C3_pid_never_cleared (env : Nat → Bool) (s : SteamTrackedProc)
    (pid : Nat) (hint : String) :
    ((s.poll env).1.pid = s.pid) ∧
    (s.terminate.1.pid = s.pid) ∧
    (s.pid.isSome → ((s.attach_pid env pid hint).pid.isSome = true)) ∧
    (pid ≠ 0 → env pid = true → (s.attach_pid env pid hint).pid = some pid) := by
  refine ⟨?_, rfl, ?_, ?_⟩
  · simp only [SteamTrackedProc.poll]
    by_cases h : s.alive = false
    · simp [h]
    · cases hp : s.pid <;> simp [h, hp]
  · intro hsome
    simp only [SteamTrackedProc.attach_pid]
    by_cases h : pid ≠ 0 ∧ env pid = true
    · simp [h]
    · simpa [h] using hsome
  · intro hpid halive
    simp [SteamTrackedProc.attach_pid, hpid, halive]

/-- Claim C3 witness: concrete instance of PID preservation and of the
live-overwrite behaviour. -/
theorem C3_pid_never_cleared_witness :
    ((SteamTrackedProc.poll (fun _ => true) ⟨"g.exe", true, some 3⟩).1.pid
        = some 3) ∧
    (SteamTrackedProc.attach_pid (fun _ => true) ⟨"g.exe", true, some 3⟩ 5 "").pid
        = some 5 :=
  ⟨(C3_pid_never_cleared (fun _ => true) ⟨"g.exe", true, some 3⟩ 5 "").1,
    (C3_pid_never_cleared (fun _ => true) ⟨"g.exe", true, some 3⟩ 5 "").2.2.2
      (by decide) (by decide)⟩

/-- Claim C4: `terminate()` is idempotent — the second call leaves the
state exactly as the first call left it and emits exactly the same kill
attempts as the first call (no additional ones: the PID and image hint
are unchanged) — and after `terminate()`, `poll()` always reports
`some 0` ("exited") under every process table, without changing the
handle. -/
theorem C4_terminate_idempotent_and_poll_exited (env : Nat → Bool)
    (s : SteamTrackedProc) :
    s.terminate.1.terminate = s.terminate ∧
    s.terminate.1.poll env = (s.terminate.1, some 0) := by
  constructor
  · rfl
  · simp [SteamTrackedProc.terminate, SteamTrackedProc.poll]

/-- The fixed denylist `_STEAM_SUPPORT_PROCS` of Steam support-process
image names that must never be mistaken for the game process. -/
def _STEAM_SUPPORT_PROCS : List String :=
  ["steam.exe",
   "steamwebhelper.exe",
   "crashhandler.exe",
   "vrcompositor.exe",
   "vrserver.exe",
   "vrmonitor.exe",
   "steamerrorreporter.exe",
   "steamservice.exe",
   "eac_launcherv2.exe",
   "eac_launcher.exe",
   "start_protected_game.exe",
   "battleyelauncher.exe",
   "steamvr_desktop_game_theater.exe",
   "steamtours.exe"]

/-- One row of `psutil.process_iter(attrs=["pid", "name", "create_time",
"memory_info"])`: pid, reported image name, creation time in seconds
(modelled as a rational), and resident memory `rss` in bytes. -/
structure ProcInfo where
  pid : Nat
  name : String
  create_time : ℚ
  rss : Nat
  deriving DecidableEq, Repr

/-- The body of the `for p in psutil.process_iter(...)` loop of
`_detect_proc_psutil`: lower the name, skip non-`.exe` names, skip the
Steam support denylist, skip processes created more than 0.5 s before the
launch time `t0`, and otherwise overwrite the current best
`(best_pid, best_name, best_rss)` whenever `rss >= best_rss`. -/
def _detect_step (t0 : ℚ) (best : Nat × String × Nat) (p : ProcInfo) :
    Nat × String × Nat :=
  if strEndsWith (strToLower p.name) ".exe" = false then best
  else if strToLower p.name ∈ _STEAM_SUPPORT_PROCS then best
  else if p.create_time + 1/2 < t0 then best
  else if best.2.2 ≤ p.rss then (p.pid, strToLower p.name, p.rss) else best

/-- The end-of-cycle check of `_detect_proc_psutil`: `if best_pid:
return (best_pid, best_name)`; over a static process table a falsy
`best_pid` repeats identically every cycle until the timeout path
returns `(0, "")`. -/
def _detect_best (best : Nat × String × Nat) : Nat × String :=
  if best.1 ≠ 0 then (best.1, best.2.1) else (0, "")

/-- One poll cycle of `_detect_proc_psutil` over a fixed process table:
fold the loop body over the enumerated rows starting from the initial
best `(0, "", 0)`, then apply the end-of-cycle check.  Over a static
process table every cycle computes the same fold, so this cycle result
also determines the overall result. -/
def _detect_proc_psutil (t0 : ℚ) (procs : List ProcInfo) : Nat × String :=
  _detect_best (procs.foldl (_detect_step t0) (0, "", 0))

/-- Eligibility exactly as the claim words it (deliberately written from
the spec's words, not from the code, to compare the two): image name not
in the exclusion set and creation time at least `launchTime - 0.5`. -/
def specEligible (t0 : ℚ) (p : ProcInfo) : Bool :=
  decide (strToLower p.name ∉ _STEAM_SUPPORT_PROCS) &&
  decide (t0 - 1/2 ≤ p.create_time)

/-- Eligibility as the code actually implements it: additionally the
lowered image name must end in ".exe". -/
def codeEligible (t0 : ℚ) (p : ProcInfo) : Bool :=
  strEndsWith (strToLower p.name) ".exe" && specEligible t0 p

/-- The spec's selection rule among eligible rows: a later row with
resident memory greater than or equal to the current best overwrites it,
so the last-enumerated row among equal maxima wins. -/
def specPick (acc : Option ProcInfo) (p : ProcInfo) : Option ProcInfo :=
  match acc with
  | none => some p
  | some q => if q.rss ≤ p.rss then some p else some q

/-- The spec's described detector: filter by an eligibility predicate,
then pick by the later-or-equal overwrite rule. -/
def specSelect (elig : ProcInfo → Bool) (procs : List ProcInfo) :
    Option ProcInfo :=
  (procs.filter elig).foldl specPick none

/-- The overwrite step of `_detect_step` once all filters have passed. -/
def _pick (best : Nat × String × Nat) (p : ProcInfo) : Nat × String × Nat :=
  if best.2.2 ≤ p.rss then (p.pid, strToLower p.name, p.rss) else best

theorem detect_step_eq_pick (t0 : ℚ) (b : Nat × String × Nat) (p : ProcInfo) :
    _detect_step t0 b p = if codeEligible t0 p then _pick b p else b := by
  unfold _detect_step
  by_cases h1 : strEndsWith (strToLower p.name) ".exe" = true
  · rw [if_neg (by simp [h1])]
    by_cases h2 : strToLower p.name ∈ _STEAM_SUPPORT_PROCS
    · have hce : codeEligible t0 p = false := by
        simp [codeEligible, specEligible, h2]
      rw [if_pos h2]
      simp [hce]
    · rw [if_neg h2]
      by_cases h3 : p.create_time + 1/2 < t0
      · have hce : codeEligible t0 p = false := by
          simp only [codeEligible, specEligible]
          simp
          intro _ _
          linarith
        rw [if_pos h3]
        simp [hce]
      · have hce : codeEligible t0 p = true := by
          simp only [codeEligible, specEligible]
          simp [h1, h2]
          linarith
        rw [if_neg h3]
        simp [hce, _pick]
  · have h1f : strEndsWith (strToLower p.name) ".exe" = false := by
      simpa using h1
    have hce : codeEligible t0 p = false := by
      simp [codeEligible, h1f]
    rw [if_pos h1f]
    simp [hce]

theorem foldl_detect_step_eq (t0 : ℚ) (procs : List ProcInfo) :
    ∀ b : Nat × String × Nat,
      procs.foldl (_detect_step t0) b
        = (procs.filter (codeEligible t0)).foldl _pick b := by
  induction procs with
  | nil => intro b; rfl
  | cons p ps ih =>
    intro b
    by_cases h : codeEligible t0 p
    · simp [List.foldl_cons, List.filter_cons, h, detect_step_eq_pick, ih]
    · simp [List.foldl_cons, List.filter_cons, h, detect_step_eq_pick, ih]

theorem foldl_pick_spec (l : List ProcInfo) :
    ∀ q : ProcInfo,
      ∃ r, l.foldl specPick (some q) = some r ∧
        l.foldl _pick (q.pid, strToLower q.name, q.rss)
          = (r.pid, strToLower r.name, r.rss) := by
  induction l with
  | nil => intro q; exact ⟨q, rfl, rfl⟩
  | cons p ps ih =>
    intro q
    by_cases h : q.rss ≤ p.rss
    · simpa [List.foldl_cons, specPick, _pick, h] using ih p
    · simpa [List.foldl_cons, specPick, _pick, h] using ih q

theorem foldl_specPick_mem (l : List ProcInfo) :
    ∀ (acc : Option ProcInfo) (r : ProcInfo),
      l.foldl specPick acc = some r → r ∈ l ∨ acc = some r := by
  induction l with
  | nil => intro acc r h; exact Or.inr h
  | cons p ps ih =>
    intro acc r h
    rcases ih (specPick acc p) r h with hmem | hacc
    · exact Or.inl (List.mem_cons_of_mem p hmem)
    · cases acc with
      | none =>
        simp only [specPick] at hacc
        injection hacc with hpr
        exact Or.inl (hpr ▸ List.mem_cons_self p ps)
      | some q =>
        simp only [specPick] at hacc
        by_cases hle : q.rss ≤ p.rss
        · rw [if_pos hle] at hacc
          injection hacc with hpr
          exact Or.inl (hpr ▸ List.mem_cons_self p ps)
        · rw [if_neg hle] at hacc
          exact Or.inr hacc

theorem foldl_specPick_max (l : List ProcInfo) :
    ∀ (acc : Option ProcInfo) (r : ProcInfo),
      l.foldl specPick acc = some r →
        (∀ x ∈ l, x.rss ≤ r.rss) ∧ (∀ q, acc = some q → q.rss ≤ r.rss) := by
  induction l with
  | nil =>
    intro acc r h
    simp only [List.foldl_nil] at h
    refine ⟨by simp, fun q hq => ?_⟩
    rw [hq] at h
    injection h with hqr
    exact le_of_eq (congrArg ProcInfo.rss hqr)
  | cons p ps ih =>
    intro acc r h
    obtain ⟨hall, hacc⟩ := ih (specPick acc p) r h
    have hp : p.rss ≤ r.rss := by
      cases acc with
      | none => exact hacc p rfl
      | some q =>
        by_cases hle : q.rss ≤ p.rss
        · exact hacc p (by simp [specPick, hle])
        · exact le_trans (le_of_not_le hle) (hacc q (by simp [specPick, hle]))
    refine ⟨fun x hx => ?_, fun a ha => ?_⟩
    · rcases List.mem_cons.mp hx with rfl | hx
      · exact hp
      · exact hall x hx
    · cases acc with
      | none => cases ha
      | some q =>
        injection ha with haq
        rw [← haq]
        by_cases hle : q.rss ≤ p.rss
        · exact le_trans hle hp
        · exact hacc q (by simp [specPick, hle])

/-- Invariant of the detection fold: whenever the accumulated best has a
truthy pid, its recorded name passed the ".exe" and denylist filters. -/
theorem foldl_detect_step_name (t0 : ℚ) (procs : List ProcInfo) :
    ∀ b : Nat × String × Nat,
      (b.1 ≠ 0 → b.2.1 ∉ _STEAM_SUPPORT_PROCS ∧ strEndsWith b.2.1 ".exe" = true) →
      ((procs.foldl (_detect_step t0) b).1 ≠ 0 →
        (procs.foldl (_detect_step t0) b).2.1 ∉ _STEAM_SUPPORT_PROCS ∧
        strEndsWith (procs.foldl (_detect_step t0) b).2.1 ".exe" = true) := by
  induction procs with
  | nil => intro b hb; exact hb
  | cons p ps ih =>
    intro b hb
    simp only [List.foldl_cons]
    apply ih
    unfold _detect_step
    by_cases h1 : strEndsWith (strToLower p.name) ".exe" = false
    · rw [if_pos h1]; exact hb
    · rw [if_neg h1]
      by_cases h2 : strToLower p.name ∈ _STEAM_SUPPORT_PROCS
      · rw [if_pos h2]; exact hb
      · rw [if_neg h2]
        by_cases h3 : p.create_time + 1/2 < t0
        · rw [if_pos h3]; exact hb
        · rw [if_neg h3]
          by_cases h4 : b.2.2 ≤ p.rss
          · rw [if_pos h4]
            intro _
            exact ⟨h2, by simpa using h1⟩
          · rw [if_neg h4]; exact hb

/-- Claim C5, counterexample: the claim's eligibility rule ("not in the
exclusion set and created at least at launchTime − 0.5s") would make a
process named "game" (no ".exe" suffix) created exactly at launch
eligible and selected, but the code's first filter is
`name.endswith(".exe")`, so the detector returns `(0, "")` instead of
that process. -/
theorem C5_counterexample_non_exe_name :
    specSelect (specEligible 0) [ProcInfo.mk 1 "game" 0 100]
      = some (ProcInfo.mk 1 "game" 0 100) ∧
    _detect_proc_psutil 0 [ProcInfo.mk 1 "game" 0 100] = (0, "") := by
  have hmem : strToLower "game" ∉ _STEAM_SUPPORT_PROCS := by decide
  have harith : (0 : ℚ) - 1/2 ≤ (ProcInfo.mk 1 "game" 0 100).create_time := by
    norm_num
  have hsE : specEligible 0 (ProcInfo.mk 1 "game" 0 100) = true := by
    simp [specEligible, harith, hmem]
  have hstr : strEndsWith (strToLower "game") ".exe" = false := by decide
  have hce : codeEligible 0 (ProcInfo.mk 1 "game" 0 100) = false := by
    simp [codeEligible, hstr]
  constructor
  · simp [specSelect, List.filter_cons, hsE, specPick]
  · unfold _detect_proc_psutil
    rw [foldl_detect_step_eq]
    rw [show List.filter (codeEligible 0) [ProcInfo.mk 1 "game" 0 100] = []
      from by simp [List.filter_cons, hce]]
    rfl

/-- Claim C5 (amended): over any process table whose rows carry truthy
pids, one detection cycle returns exactly what the claim's reference rule
computes once eligibility is amended to additionally require the image
name to end in ".exe": among eligible rows, later-or-equal resident
memory overwrites the current best (`specPick`, so the last-enumerated
row among equal maxima wins), and the returned row is an eligible row of
maximal resident memory; without eligible rows `(0, "")` is returned. -/
theorem C5_resource_ranking_amended (t0 : ℚ) (procs : List ProcInfo)
    (hpid : ∀ p ∈ procs, p.pid ≠ 0) :
    _detect_proc_psutil t0 procs =
      (match specSelect (codeEligible t0) procs with
        | none => (0, "")
        | some q => (q.pid, strToLower q.name)) ∧
    (∀ q, specSelect (codeEligible t0) procs = some q →
      q ∈ procs ∧ codeEligible t0 q = true ∧
        ∀ r ∈ procs, codeEligible t0 r = true → r.rss ≤ q.rss) := by
  have hsub : ∀ x, x ∈ procs.filter (codeEligible t0) →
      x ∈ procs ∧ codeEligible t0 x = true := by
    intro x hx
    exact ⟨List.mem_of_mem_filter hx, List.of_mem_filter hx⟩
  constructor
  · unfold _detect_proc_psutil specSelect
    rw [foldl_detect_step_eq]
    cases hel : procs.filter (codeEligible t0) with
    | nil => simp [_detect_best]
    | cons p ps =>
      obtain ⟨r, hr1, hr2⟩ := foldl_pick_spec ps p
      have hrfil : r ∈ procs.filter (codeEligible t0) := by
        rw [hel]
        rcases foldl_specPick_mem ps (some p) r hr1 with hm | hm
        · exact List.mem_cons_of_mem p hm
        · injection hm with hm
          rw [← hm]
          exact List.mem_cons_self p ps
      have hr0 : r.pid ≠ 0 := hpid r (hsub r hrfil).1
      have hpick0 : _pick (0, "", 0) p = (p.pid, strToLower p.name, p.rss) := by
        simp [_pick]
      have hsp : specPick none p = some p := rfl
      simp only [List.foldl_cons, hpick0, hr2, hsp, hr1]
      simp [_detect_best, hr0]
  · intro q hq
    unfold specSelect at hq
    have hqfil : q ∈ procs.filter (codeEligible t0) := by
      rcases foldl_specPick_mem _ none q hq with hm | hm
      · exact hm
      · cases hm
    obtain ⟨hq1, hq2⟩ := hsub q hqfil
    refine ⟨hq1, hq2, fun r hr hre => ?_⟩
    have hrf : r ∈ procs.filter (codeEligible t0) :=
      List.mem_filter_of_mem hr hre
    exact (foldl_specPick_max _ none q hq).1 r hrf

/-- Claim C5 witness: two tied eligible candidates (equal rss), the
later-enumerated one is returned; the hypothesis (truthy pids) is
discharged concretely. -/
theorem C5_resource_ranking_amended_witness :
    (∀ p ∈ [ProcInfo.mk 1 "a.exe" 10 7, ProcInfo.mk 2 "b.exe" 10 7],
        p.pid ≠ 0) ∧
    _detect_proc_psutil 10 [ProcInfo.mk 1 "a.exe" 10 7, ProcInfo.mk 2 "b.exe" 10 7]
      = (2, "b.exe") := by
  have hce1 : codeEligible 10 (ProcInfo.mk 1 "a.exe" 10 7) = true := by
    have hstr : strEndsWith (strToLower "a.exe") ".exe" = true := by decide
    have hmem : strToLower "a.exe" ∉ _STEAM_SUPPORT_PROCS := by decide
    have harith : (10 : ℚ) - 1/2 ≤ (ProcInfo.mk 1 "a.exe" 10 7).create_time := by
      norm_num
    simp [codeEligible, specEligible, hstr, hmem, harith]
  have hce2 : codeEligible 10 (ProcInfo.mk 2 "b.exe" 10 7) = true := by
    have hstr : strEndsWith (strToLower "b.exe") ".exe" = true := by decide
    have hmem : strToLower "b.exe" ∉ _STEAM_SUPPORT_PROCS := by decide
    have harith : (10 : ℚ) - 1/2 ≤ (ProcInfo.mk 2 "b.exe" 10 7).create_time := by
      norm_num
    simp [codeEligible, specEligible, hstr, hmem, harith]
  have hsel : specSelect (codeEligible 10)
      [ProcInfo.mk 1 "a.exe" 10 7, ProcInfo.mk 2 "b.exe" 10 7]
      = some (ProcInfo.mk 2 "b.exe" 10 7) := by
    simp [specSelect, List.filter_cons, hce1, hce2, specPick]
  refine ⟨by decide, ?_⟩
  rw [(C5_resource_ranking_amended 10
    [ProcInfo.mk 1 "a.exe" 10 7, ProcInfo.mk 2 "b.exe" 10 7] (by decide)).1]
  rw [hsel]
  decide

/-- Claim C6, counterexample: the claim quantifies over lists in which
all processes created (strictly) after `launchTime` are denylisted, but
the 0.5 s grace window also admits processes created shortly BEFORE
launch.  Here the only process was created at launchTime − 0.3 s (so the
claim's hypothesis holds vacuously: it was not created after launch) and
carries a non-denylisted name, and detection returns it rather than
"none". -/
theorem C6_counterexample_pre_launch_straggler :
    ¬ ((1 : ℚ) < 7/10) ∧
    _detect_proc_psutil 1 [ProcInfo.mk 1 "game.exe" (7/10) 5]
      = (1, "game.exe") := by
  have hce : codeEligible 1 (ProcInfo.mk 1 "game.exe" (7/10) 5) = true := by
    have hstr : strEndsWith (strToLower "game.exe") ".exe" = true := by decide
    have hmem : strToLower "game.exe" ∉ _STEAM_SUPPORT_PROCS := by decide
    have harith : (1 : ℚ) - 1/2 ≤ (ProcInfo.mk 1 "game.exe" (7/10) 5).create_time := by
      norm_num
    simp [codeEligible, specEligible, hstr, hmem, harith]
    norm_num
  refine ⟨by norm_num, ?_⟩
  unfold _detect_proc_psutil
  rw [foldl_detect_step_eq]
  rw [show List.filter (codeEligible 1) [ProcInfo.mk 1 "game.exe" (7/10) 5]
      = [ProcInfo.mk 1 "game.exe" (7/10) 5] from by simp [List.filter_cons, hce]]
  have hlow : strToLower "game.exe" = "game.exe" := by decide
  simp [_pick, _detect_best, hlow]

/-- Claim C6 (amended): the detector never returns a denylisted image
name, and whenever every process created inside or after the grace
window (creation time ≥ launchTime − 0.5 s) has a denylisted name, one
detection cycle returns `(0, "")` ("none"). -/
theorem C6_denylist_never_selected (t0 : ℚ) (procs : List ProcInfo) :
    (∀ pid nm, _detect_proc_psutil t0 procs = (pid, nm) → pid ≠ 0 →
      nm ∉ _STEAM_SUPPORT_PROCS) ∧
    ((∀ p ∈ procs, t0 - 1/2 ≤ p.create_time →
        strToLower p.name ∈ _STEAM_SUPPORT_PROCS) →
      _detect_proc_psutil t0 procs = (0, "")) := by
  constructor
  · intro pid nm hdet hpid0
    unfold _detect_proc_psutil _detect_best at hdet
    by_cases hb : (procs.foldl (_detect_step t0) (0, "", 0)).1 ≠ 0
    · have hinv := foldl_detect_step_name t0 procs (0, "", 0)
        (fun h => absurd rfl h) hb
      rw [if_pos hb] at hdet
      injection hdet with hdp hdn
      rw [← hdn]
      exact hinv.1
    · rw [if_neg hb] at hdet
      injection hdet with hdp hdn
      exact absurd hdp.symm hpid0
  · intro hall
    have hfil : procs.filter (codeEligible t0) = [] := by
      rw [List.filter_eq_nil_iff]
      intro p hp
      by_cases hw : t0 - 1/2 ≤ p.create_time
      · have hmem := hall p hp hw
        simp [codeEligible, specEligible, hmem]
      · simp [codeEligible, specEligible]
        intro _ _
        linarith [lt_of_not_le hw]
    unfold _detect_proc_psutil
    rw [foldl_detect_step_eq, hfil]
    rfl

/-- Claim C6 witness: a non-denylisted return value at one input, and the
all-denylisted-in-window input returning "none" at another. -/
theorem C6_denylist_never_selected_witness :
    "game.exe" ∉ _STEAM_SUPPORT_PROCS ∧
    _detect_proc_psutil 1 [ProcInfo.mk 7 "steam.exe" 2 50] = (0, "") := by
  have hdet : _detect_proc_psutil 1 [ProcInfo.mk 7 "game.exe" 2 50]
      = (7, "game.exe") := by
    have hce : codeEligible 1 (ProcInfo.mk 7 "game.exe" 2 50) = true := by
      have hstr : strEndsWith (strToLower "game.exe") ".exe" = true := by decide
      have hmem : strToLower "game.exe" ∉ _STEAM_SUPPORT_PROCS := by decide
      have harith : (1 : ℚ) - 1/2 ≤ (ProcInfo.mk 7 "game.exe" 2 50).create_time := by
        norm_num
      simp [codeEligible, specEligible, hstr, hmem, harith]
      norm_num
    unfold _detect_proc_psutil
    rw [foldl_detect_step_eq]
    rw [show List.filter (codeEligible 1) [ProcInfo.mk 7 "game.exe" 2 50]
        = [ProcInfo.mk 7 "game.exe" 2 50] from by simp [List.filter_cons, hce]]
    have hlow : strToLower "game.exe" = "game.exe" := by decide
    simp [_pick, _detect_best, hlow]
  refine
    ⟨(C6_denylist_never_selected 1 [ProcInfo.mk 7 "game.exe" 2 50]).1
        7 "game.exe" hdet (by decide),
      (C6_denylist_never_selected 1 [ProcInfo.mk 7 "steam.exe" 2 50]).2 ?_⟩
  intro p hp hw
  simp only [List.mem_singleton] at hp
  subst hp
  decide

/-- Snapshots are the sets produced by `_tasklist_images()`, modelled as
duplicate-free lists of lowercase image names.  `tasklistNew` is the
candidate set one poll cycle of `_detect_proc_tasklist` computes:
`now - baseline`, restricted to ".exe"-suffixed names, minus the Steam
support denylist. -/
def tasklistNew (baseline now : List String) : List String :=
  ((now.filter (fun n => decide (n ∉ baseline))).filter
      (fun n => strEndsWith n ".exe")).filter
    (fun n => decide (n ∉ _STEAM_SUPPORT_PROCS))

/-- The secondary-filter test: the name contains an
installer/updater/launcher substring and is to be discarded. -/
def _badName (n : String) : Bool :=
  strContains n "launcher" || strContains n "setup" ||
  strContains n "updater" || strContains n "install"

/-- The secondary candidate list built when several candidates remain:
keep only names containing none of the bad substrings. -/
def tasklistPrefer (baseline now : List String) : List String :=
  (tasklistNew baseline now).filter (fun n => !(_badName n))

/-- One poll cycle of `_detect_proc_tasklist` over fixed snapshots.
A unique candidate is returned directly; with several candidates the
secondary filter is applied and a unique survivor is returned; `none`
models the cycle producing no answer (the Python loop then sleeps and
retries, and over static snapshots every later cycle repeats the same
result until the timeout path returns `""`). -/
def _detect_proc_tasklist (baseline now : List String) : Option String :=
  match tasklistNew baseline now with
  | [] => none
  | [x] => some x
  | _ :: _ :: _ =>
    match tasklistPrefer baseline now with
    | [x] => some x
    | _ => none

theorem mem_tasklistNew (baseline now : List String) (x : String) :
    x ∈ tasklistNew baseline now ↔
      x ∈ now ∧ x ∉ baseline ∧ strEndsWith x ".exe" = true ∧
        x ∉ _STEAM_SUPPORT_PROCS := by
  simp only [tasklistNew, List.mem_filter, decide_eq_true_eq, Bool.and_eq_true,
    and_assoc]

theorem tasklist_some_mem (baseline now : List String) (x : String) :
    _detect_proc_tasklist baseline now = some x →
      x ∈ tasklistNew baseline now := by
  unfold _detect_proc_tasklist
  cases hl : tasklistNew baseline now with
  | nil => intro h; simp at h
  | cons y ys =>
    cases ys with
    | nil =>
      intro h
      simp only [] at h
      injection h with h
      rw [← h]
      exact List.mem_singleton_self y
    | cons z zs =>
      cases hp : tasklistPrefer baseline now with
      | nil => intro h; simp at h
      | cons w ws =>
        cases ws with
        | nil =>
          intro h
          simp only [] at h
          injection h with h
          have hwmem : w ∈ tasklistPrefer baseline now := by
            rw [hp]
            exact List.mem_singleton_self w
          rw [← h, ← hl]
          exact List.mem_of_mem_filter hwmem
        | cons v vs => intro h; simp at h

/-- A duplicate-free list whose members all equal `x`, with `x` a member,
is the singleton `[x]`. -/
theorem nodup_all_eq_singleton {α : Type} {l : List α} (hl : l.Nodup)
    (x : α) (hx : x ∈ l) (hall : ∀ y ∈ l, y = x) : l = [x] := by
  cases l with
  | nil => cases hx
  | cons a as =>
    have ha : a = x := hall a (List.mem_cons_self a as)
    cases as with
    | nil => rw [ha]
    | cons b bs =>
      exfalso
      have hb : b = x := hall b (List.mem_cons_of_mem a (List.mem_cons_self b bs))
      have : a ∉ b :: bs := (List.nodup_cons.mp hl).1
      exact this (by rw [ha, hb]; exact List.mem_cons_self x bs)

theorem tasklistNew_nodup (baseline now : List String) (hnow : now.Nodup) :
    (tasklistNew baseline now).Nodup :=
  ((hnow.filter _).filter _).filter _

theorem tasklistPrefer_nodup (baseline now : List String) (hnow : now.Nodup) :
    (tasklistPrefer baseline now).Nodup :=
  (tasklistNew_nodup baseline now hnow).filter _

/-- Claim C7: the snapshot-diff detector.  (1) The spec's worked example:
before {a.exe, b.exe}, after {a.exe, b.exe, c.exe, updater.exe} yields
c.exe (updater.exe is removed by the secondary filter).  (2) An unchanged
snapshot yields none.  (3) Any returned name is new, ".exe"-suffixed and
not denylisted.  (4) A sole candidate is returned.  (5) With several
candidates, a sole secondary-filter survivor is returned.  (6) No
candidate yields none.  (7) With several candidates and no unique
survivor the cycle yields none (the loop keeps polling until timeout).
Snapshots are duplicate-free (they model Python sets). -/
theorem C7_snapshot_diff (baseline now : List String) (hnow : now.Nodup) :
    (_detect_proc_tasklist ["a.exe", "b.exe"]
        ["a.exe", "b.exe", "c.exe", "updater.exe"] = some "c.exe") ∧
    (∀ s : List String, _detect_proc_tasklist s s = none) ∧
    (∀ x, _detect_proc_tasklist baseline now = some x →
      x ∈ now ∧ x ∉ baseline ∧ strEndsWith x ".exe" = true ∧
        x ∉ _STEAM_SUPPORT_PROCS) ∧
    (∀ x, x ∈ tasklistNew baseline now →
      (∀ y ∈ tasklistNew baseline now, y = x) →
      _detect_proc_tasklist baseline now = some x) ∧
    (∀ x, 1 < (tasklistNew baseline now).length →
      x ∈ tasklistPrefer baseline now →
      (∀ y ∈ tasklistPrefer baseline now, y = x) →
      _detect_proc_tasklist baseline now = some x) ∧
    (tasklistNew baseline now = [] → _detect_proc_tasklist baseline now = none) ∧
    (1 < (tasklistNew baseline now).length →
      (tasklistPrefer baseline now).length ≠ 1 →
      _detect_proc_tasklist baseline now = none) := by
  refine ⟨by decide, ?_, ?_, ?_, ?_, ?_, ?_⟩
  · intro s
    have hempty : tasklistNew s s = [] := by
      unfold tasklistNew
      rw [show s.filter (fun n => decide (n ∉ s)) = [] from
        List.filter_eq_nil_iff.mpr (fun a ha => by simp [ha])]
      rfl
    unfold _detect_proc_tasklist
    rw [hempty]
  · intro x hx
    exact (mem_tasklistNew baseline now x).mp
      (tasklist_some_mem baseline now x hx)
  · intro x hx hall
    have hl : tasklistNew baseline now = [x] :=
      nodup_all_eq_singleton (tasklistNew_nodup baseline now hnow) x hx hall
    unfold _detect_proc_tasklist
    rw [hl]
  · intro x hlen hx hall
    have hp : tasklistPrefer baseline now = [x] :=
      nodup_all_eq_singleton (tasklistPrefer_nodup baseline now hnow) x hx hall
    unfold _detect_proc_tasklist
    cases hl : tasklistNew baseline now with
    | nil => rw [hl] at hlen; simp at hlen
    | cons y ys =>
      cases ys with
      | nil => rw [hl] at hlen; simp at hlen
      | cons z zs => rw [hp]
  · intro hempty
    unfold _detect_proc_tasklist
    rw [hempty]
  · intro hlen hlp
    unfold _detect_proc_tasklist
    cases hl : tasklistNew baseline now with
    | nil => rfl
    | cons y ys =>
      cases ys with
      | nil => rw [hl] at hlen; simp at hlen
      | cons z zs =>
        cases hp : tasklistPrefer baseline now with
        | nil => rfl
        | cons w ws =>
          cases ws with
          | nil => exact absurd (by rw [hp]; rfl) hlp
          | cons v vs => rfl

/-- Claim C7 witness: a concrete sole-candidate run through part (4) of
the theorem, with the duplicate-free hypothesis discharged. -/
theorem C7_snapshot_diff_witness :
    _detect_proc_tasklist [] ["c.exe"] = some "c.exe" :=
  (C7_snapshot_diff [] ["c.exe"] (by decide)).2.2.2.1 "c.exe"
    (by decide) (by decide)

/-- One auxiliary app process (a `subprocess.Popen`) held in
`ProcessManager._extra_procs`: its pid and whether `poll()` currently
returns `None` (still running). -/
structure ExtraProc where
  pid : Nat
  running : Bool
  deriving DecidableEq, Repr

/-- The inner handle wrapped by `GameProcess`: a directly spawned
`subprocess.Popen` (Exe launches) or a `_SteamTrackedProc` (Steam
launches). -/
inductive InnerProc where
  | popen (pid : Nat) (running : Bool)
  | steam (s : SteamTrackedProc)
  deriving DecidableEq, Repr

/-- `GameProcess.terminate()`: delegate to the inner handle; the wrapper
swallows exceptions, and neither branch raises.  A `Popen` terminate is
an OS terminate call on the pid; a tracked terminate is
`SteamTrackedProc.terminate`. -/
def InnerProc.terminate : InnerProc → InnerProc × List KillAction
  | .popen pid r => (.popen pid r, [KillAction.popenTerminate pid])
  | .steam s => (.steam s.terminate.1, s.terminate.2)

/-- `ProcessManager` state: the optional current game handle
`_current_proc` and the auxiliary list `_extra_procs`. -/
structure ProcessManager where
  _current_proc : Option InnerProc
  _extra_procs : List ExtraProc
  deriving DecidableEq, Repr

/-- `ProcessManager._kill_extra_apps()`: for every extra app whose
`poll()` still returns `None`, issue `_kill_tree(pid)`; then clear the
list.  Each kill is wrapped in try/except and never raises. -/
def _kill_extra_apps (ps : List ExtraProc) : List KillAction :=
  (ps.filter (fun p => p.running)).map (fun p => KillAction.killTree p.pid)

/-- `ProcessManager.kill_current()`: if a current handle exists,
terminate it and clear the reference; then always run
`_kill_extra_apps` and clear the auxiliary list.  Returns the new state
and the emitted kill actions. -/
def ProcessManager.kill_current (m : ProcessManager) :
    ProcessManager × List KillAction :=
  match m._current_proc with
  | some gp => (⟨none, []⟩, gp.terminate.2 ++ _kill_extra_apps m._extra_procs)
  | none => (⟨none, []⟩, _kill_extra_apps m._extra_procs)

/-- Claim C8: after `kill_current()` the current handle is absent and
the auxiliary collection is empty; every auxiliary still running
receives a kill-tree action (an already-exited auxiliary needs no kill);
when there is no current handle the emitted actions are exactly the
auxiliary kills — the auxiliary teardown happens regardless of the
current handle; and when a current handle exists the emitted actions are
exactly its `terminate()` actions followed by the auxiliary kills, so
the current handle is really terminated, not merely dropped. -/
theorem C8_kill_current_clears_all (m : ProcessManager) :
    (m.kill_current.1._current_proc = none ∧
      m.kill_current.1._extra_procs = []) ∧
    (∀ e ∈ m._extra_procs, e.running = true →
      KillAction.killTree e.pid ∈ m.kill_current.2) ∧
    (m._current_proc = none →
      m.kill_current.2 = _kill_extra_apps m._extra_procs) ∧
    (∀ gp, m._current_proc = some gp →
      m.kill_current.2 = gp.terminate.2 ++ _kill_extra_apps m._extra_procs) := by
  refine ⟨?_, ?_, ?_, ?_⟩
  · cases hc : m._current_proc <;> simp [ProcessManager.kill_current, hc]
  · intro e he hrun
    have hmem : KillAction.killTree e.pid ∈ _kill_extra_apps m._extra_procs := by
      simp only [_kill_extra_apps, List.mem_map]
      exact ⟨e, List.mem_filter_of_mem he hrun, rfl⟩
    cases hc : m._current_proc <;>
      simp [ProcessManager.kill_current, hc, hmem]
  · intro hc
    simp [ProcessManager.kill_current, hc]
  · intro gp hc
    simp [ProcessManager.kill_current, hc]

/-- Claim C8 witness: a manager with no current handle and two stale
running auxiliaries still kills both and clears the collection; and a
manager holding a tracked current handle (pid 9, hint "game.exe") emits
that handle's kill-tree and kill-by-image actions before the auxiliary
kill. -/
theorem C8_kill_current_clears_all_witness :
    KillAction.killTree 11 ∈
      (ProcessManager.kill_current ⟨none, [⟨11, true⟩, ⟨22, true⟩]⟩).2 ∧
    KillAction.killTree 22 ∈
      (ProcessManager.kill_current ⟨none, [⟨11, true⟩, ⟨22, true⟩]⟩).2 ∧
    (ProcessManager.kill_current ⟨none, [⟨11, true⟩, ⟨22, true⟩]⟩).1._extra_procs
      = [] ∧
    (ProcessManager.kill_current
        ⟨some (.steam ⟨"game.exe", true, some 9⟩), [⟨11, true⟩]⟩).2
      = [KillAction.killTree 9, KillAction.killImage "game.exe",
          KillAction.killTree 11] := by
  refine
    ⟨(C8_kill_current_clears_all ⟨none, [⟨11, true⟩, ⟨22, true⟩]⟩).2.1
        ⟨11, true⟩ (by decide) rfl,
      (C8_kill_current_clears_all ⟨none, [⟨11, true⟩, ⟨22, true⟩]⟩).2.1
        ⟨22, true⟩ (by decide) rfl,
      (C8_kill_current_clears_all ⟨none, [⟨11, true⟩, ⟨22, true⟩]⟩).1.2, ?_⟩
  rw [(C8_kill_current_clears_all
      ⟨some (.steam ⟨"game.exe", true, some 9⟩), [⟨11, true⟩]⟩).2.2.2
      (.steam ⟨"game.exe", true, some 9⟩) rfl]
  decide

/-- The `Game` dataclass (`models/game.py`), restricted to the fields the
launch paths read. -/
structure Game where
  name : String
  is_steam : Bool
  exe_path : String
  args : String
  working_dir : String
  steam_app_id : String
  steam_proc_name : String
  extra_apps : List String

/-- The exceptions `ProcessManager.launch` can raise: `ValueError`
(required field missing), `FileNotFoundError` (declared exe path does
not exist on disk), `RuntimeError` (OS spawn or Steam failure). -/
inductive LaunchError where
  | valueError (msg : String)
  | fileNotFoundError (msg : String)
  | runtimeError (msg : String)
  deriving DecidableEq, Repr

/-- The `subprocess.Popen` invocation `_launch_exe` would make: argv and
working directory. -/
structure ExeCommand where
  cmd : List String
  cwd : String
  deriving DecidableEq, Repr

/-- `ProcessManager._launch_exe(game)`.  `fs path` models
`Path(path).exists()`, `parentDir` models `Path(exe).parent`, and
`spawn` models `subprocess.Popen` (`some pid` on success, `none` when
the OS refuses, which the source wraps in a `RuntimeError`).  Checks run
in source order: empty path → `ValueError`; missing file →
`FileNotFoundError`; then spawn with whitespace-split args and the
declared or default working directory. -/
def ProcessManager._launch_exe (fs : String → Bool)
    (parentDir : String → String) (spawn : ExeCommand → Option Nat)
    (game : Game) : Except LaunchError InnerProc :=
  if strTrim game.exe_path = "" then
    .error (.valueError
      ("El juego " ++ game.name ++ " no tiene ruta de ejecutable."))
  else if fs (strTrim game.exe_path) = false then
    .error (.fileNotFoundError
      ("No se encuentra el ejecutable: " ++ strTrim game.exe_path))
  else
    match spawn
      ⟨strTrim game.exe_path ::
          (if strTrim game.args = "" then [] else wsSplit (strTrim game.args)),
        if strTrim game.working_dir = "" then parentDir (strTrim game.exe_path)
        else strTrim game.working_dir⟩ with
    | some pid => .ok (.popen pid true)
    | none => .error (.runtimeError ("Error al lanzar " ++ game.name))

/-- `ProcessManager._launch_extra_apps(game)`: clear the extras, then
best-effort spawn each nonempty existing path; a missing file or spawn
failure is logged and skipped. -/
def _launch_extra_apps (fs : String → Bool) (extraSpawn : String → Option Nat)
    (paths : List String) : List ExtraProc :=
  paths.filterMap (fun raw =>
    if strTrim raw = "" then none
    else if fs (strTrim raw) = false then none
    else match extraSpawn (strTrim raw) with
      | some pid => some ⟨pid, true⟩
      | none => none)

/-- `ProcessManager.launch(game)`: dispatch on `game.is_steam`
(`steamLaunch` abstracts the `_launch_steam` path, never entered by
Exe-mode configs), store the produced handle as current, launch the
extra apps, and return the handle.  A raised error propagates before any
state change. -/
def ProcessManager.launch (steamLaunch : Game → Except LaunchError InnerProc)
    (fs : String → Bool) (parentDir : String → String)
    (spawn : ExeCommand → Option Nat) (extraSpawn : String → Option Nat)
    (_m : ProcessManager) (game : Game) :
    Except LaunchError (ProcessManager × InnerProc) :=
  match (if game.is_steam then steamLaunch game
        else ProcessManager._launch_exe fs parentDir spawn game) with
  | .error e => .error e
  | .ok proc =>
    .ok (⟨some proc, _launch_extra_apps fs extraSpawn game.extra_apps⟩, proc)

/-- The manager state after a `launch` call, with Python exception
semantics: when `launch` raises, the manager is left unchanged. -/
def ProcessManager.launchResult
    (steamLaunch : Game → Except LaunchError InnerProc)
    (fs : String → Bool) (parentDir : String → String)
    (spawn : ExeCommand → Option Nat) (extraSpawn : String → Option Nat)
    (m : ProcessManager) (game : Game) : ProcessManager :=
  match ProcessManager.launch steamLaunch fs parentDir spawn extraSpawn m game with
  | .ok (m1, _) => m1
  | .error _ => m

/-- Claim C9: an Exe-mode config with a declared path that does not exist
on disk makes `launch` fail with `FileNotFoundError`, for every spawn
oracle (so no process is spawned), and the manager state is unchanged —
in particular a previously unset current handle stays unset. -/
theorem C9_launch_missing_exe
    (steamLaunch : Game → Except LaunchError InnerProc)
    (fs : String → Bool) (parentDir : String → String)
    (spawn : ExeCommand → Option Nat) (extraSpawn : String → Option Nat)
    (m : ProcessManager) (game : Game)
    (hmode : game.is_steam = false)
    (hne : strTrim game.exe_path ≠ "")
    (hfs : fs (strTrim game.exe_path) = false) :
    ProcessManager.launch steamLaunch fs parentDir spawn extraSpawn m game
      = .error (.fileNotFoundError
          ("No se encuentra el ejecutable: " ++ strTrim game.exe_path)) ∧
    ProcessManager.launchResult steamLaunch fs parentDir spawn extraSpawn m game
      = m := by
  have hexe : ProcessManager._launch_exe fs parentDir spawn game
      = .error (.fileNotFoundError
          ("No se encuentra el ejecutable: " ++ strTrim game.exe_path)) := by
    unfold ProcessManager._launch_exe
    rw [if_neg hne, if_pos hfs]
  have hlaunch : ProcessManager.launch steamLaunch fs parentDir spawn
      extraSpawn m game
      = .error (.fileNotFoundError
          ("No se encuentra el ejecutable: " ++ strTrim game.exe_path)) := by
    unfold ProcessManager.launch
    rw [hmode]
    simp only [Bool.false_eq_true, if_false]
    rw [hexe]
  exact ⟨hlaunch, by unfold ProcessManager.launchResult; rw [hlaunch]⟩

/-- Claim C9 witness: a concrete manager with no current handle, an
Exe-mode game whose path exists nowhere (`fs` is constantly false):
launch raises `FileNotFoundError` and the manager is unchanged. -/
theorem C9_launch_missing_exe_witness :
    ProcessManager.launch (fun _ => .error (.runtimeError "steam"))
        (fun _ => false) (fun _ => "") (fun _ => some 1) (fun _ => some 2)
        ⟨none, []⟩ ⟨"g", false, "game.exe", "", "", "", "", []⟩
      = .error (.fileNotFoundError "No se encuentra el ejecutable: game.exe") ∧
    ProcessManager.launchResult (fun _ => .error (.runtimeError "steam"))
        (fun _ => false) (fun _ => "") (fun _ => some 1) (fun _ => some 2)
        ⟨none, []⟩ ⟨"g", false, "game.exe", "", "", "", "", []⟩
      = ⟨none, []⟩ := by
  have h := C9_launch_missing_exe (fun _ => .error (.runtimeError "steam"))
    (fun _ => false) (fun _ => "") (fun _ => some 1) (fun _ => some 2)
    ⟨none, []⟩ ⟨"g", false, "game.exe", "", "", "", "", []⟩
    rfl (by decide) rfl
  have hmsg : ("No se encuentra el ejecutable: " ++ strTrim "game.exe")
      = "No se encuentra el ejecutable: game.exe" := by decide
  refine ⟨?_, h.2⟩
  rw [h.1, hmsg]

/-- Claim C10: both detection strategies only ever return
".exe"-suffixed image names: the resource-ranking detector whenever it
returns a truthy pid, and the snapshot-diff detector whenever it returns
a name — so a game process with any other name is undetectable. -/
theorem C10_detectors_return_exe_only (t0 : ℚ) (procs : List ProcInfo)
    (baseline now : List String) :
    (∀ pid nm, _detect_proc_psutil t0 procs = (pid, nm) → pid ≠ 0 →
      strEndsWith nm ".exe" = true) ∧
    (∀ x, _detect_proc_tasklist baseline now = some x →
      strEndsWith x ".exe" = true) := by
  constructor
  · intro pid nm hdet hpid0
    unfold _detect_proc_psutil _detect_best at hdet
    by_cases hb : (procs.foldl (_detect_step t0) (0, "", 0)).1 ≠ 0
    · have hinv := foldl_detect_step_name t0 procs (0, "", 0)
        (fun h => absurd rfl h) hb
      rw [if_pos hb] at hdet
      injection hdet with hdp hdn
      rw [← hdn]
      exact hinv.2
    · rw [if_neg hb] at hdet
      injection hdet with hdp hdn
      exact absurd hdp.symm hpid0
  · intro x hx
    exact ((mem_tasklistNew baseline now x).mp
      (tasklist_some_mem baseline now x hx)).2.2.1

/-- Claim C10 witness: both detectors evaluated at concrete inputs where
they succeed; the returned names end in ".exe". -/
theorem C10_detectors_return_exe_only_witness :
    strEndsWith "game.exe" ".exe" = true ∧
    strEndsWith "c.exe" ".exe" = true := by
  have hdet : _detect_proc_psutil 1 [ProcInfo.mk 7 "game.exe" 2 50]
      = (7, "game.exe") := by
    have hce : codeEligible 1 (ProcInfo.mk 7 "game.exe" 2 50) = true := by
      have hstr : strEndsWith (strToLower "game.exe") ".exe" = true := by decide
      have hmem : strToLower "game.exe" ∉ _STEAM_SUPPORT_PROCS := by decide
      have harith : (1 : ℚ) - 1/2 ≤ (ProcInfo.mk 7 "game.exe" 2 50).create_time := by
        norm_num
      simp [codeEligible, specEligible, hstr, hmem, harith]
      norm_num
    unfold _detect_proc_psutil
    rw [foldl_detect_step_eq]
    rw [show List.filter (codeEligible 1) [ProcInfo.mk 7 "game.exe" 2 50]
        = [ProcInfo.mk 7 "game.exe" 2 50] from by simp [List.filter_cons, hce]]
    have hlow : strToLower "game.exe" = "game.exe" := by decide
    simp [_pick, _detect_best, hlow]
  exact
    ⟨(C10_detectors_return_exe_only 1 [ProcInfo.mk 7 "game.exe" 2 50]
        [] ["c.exe"]).1 7 "game.exe" hdet (by decide),
      (C10_detectors_return_exe_only 1 [ProcInfo.mk 7 "game.exe" 2 50]
        [] ["c.exe"]).2 "c.exe" (by decide)⟩
